import Mathlib

/-!
# Verification of the openscad-studio transactional edit core

Shallow embedding of the Rust sources of `openscad-studio`:

* `src/apps/ui/src-tauri/src/types.rs` — `Diagnostic`, `DiagnosticSeverity`,
  `ChangeType`, `EditorCheckpoint`;
* `src/apps/ui/src-tauri/src/cmd/ai_tools.rs` — `validate_edit`, `apply_edit`,
  `EditorState`;
* `src/apps/ui/src-tauri/src/history.rs` — `EditorHistory` and its operations;
* `src/apps/ui/src-tauri/src/utils/cache.rs` — `RenderCache`.

Strings are modelled as `List Char`.  The Rust string primitives used by the
code (`str::contains`, `str::matches(..).count()`, `str::replace`,
`str::lines().count()`) are embedded below with their exact semantics
(non-overlapping leftmost matching, the empty-pattern conventions of the Rust
standard library).  External effects (the OpenSCAD compiler invocation, uuid
and clock generation, the filesystem) are passed in as explicit parameters.
-/

namespace OpenscadStudio

/-- `DiagnosticSeverity` from types.rs. -/
inductive DiagnosticSeverity
  | Error
  | Warning
  | Info
deriving DecidableEq, Repr

/-- `DiagnosticSeverity::is_error` from types.rs. -/
def DiagnosticSeverity.is_error : DiagnosticSeverity → Bool
  | .Error => true
  | _ => false

/-- `Diagnostic` from types.rs. -/
structure Diagnostic where
  severity : DiagnosticSeverity
  line : Option Int
  col : Option Int
  message : List Char
deriving DecidableEq, Repr

/-- `ChangeType` from types.rs. -/
inductive ChangeType
  | User
  | Ai
  | FileLoad
  | Undo
  | Redo
deriving DecidableEq, Repr

/-- `EditorCheckpoint` from types.rs. -/
structure EditorCheckpoint where
  id : List Char
  timestamp : Int
  code : List Char
  diagnostics : List Diagnostic
  description : List Char
  change_type : ChangeType
deriving DecidableEq, Repr

/-!
## Rust string primitives

`str::lines` splits on newline characters, a trailing newline producing no
extra empty line (carriage-return stripping changes line contents but never
the line count, which is all the code uses).
-/

/-- `str::lines` as a list of lines: the count agrees with
`str::lines().count()` in Rust. -/
def rustLines : List Char → List (List Char)
  | [] => []
  | c :: rest =>
      if c = '\n' then [] :: rustLines rest
      else
        match rustLines rest with
        | [] => [[c]]
        | l :: ls => (c :: l) :: ls

/-- `str::contains(pat)` from the Rust standard library: `p` occurs as a
contiguous substring of `t` (always true for an empty pattern). -/
def rustContains : List Char → List Char → Bool
  | [], p => p.isEmpty
  | c :: rest, p => p.isPrefixOf (c :: rest) || rustContains rest p

/-- Fuel-driven core of `str::matches(pat).count()` for a non-empty pattern:
count leftmost non-overlapping occurrences of `p`.  The fuel is always
instantiated with the length of the scanned text, which suffices because each
step consumes at least one character. -/
def countMatchesFuel (p : List Char) : Nat → List Char → Nat
  | 0, _ => 0
  | _ + 1, [] => 0
  | fuel + 1, c :: rest =>
      if p.isPrefixOf (c :: rest) then
        1 + countMatchesFuel p fuel (rest.drop (p.length - 1))
      else
        countMatchesFuel p fuel rest

/-- `str::matches(p).count()` on text `t`.  For an empty pattern the Rust
searcher yields one (empty) match at every character boundary. -/
def rustCountMatches (t p : List Char) : Nat :=
  if p.isEmpty then t.length + 1 else countMatchesFuel p t.length t

/-- Fuel-driven core of `str::replace` for a non-empty pattern: replace
leftmost non-overlapping occurrences of `p` by `r`. -/
def replaceFuel (p r : List Char) : Nat → List Char → List Char
  | 0, t => t
  | _ + 1, [] => []
  | fuel + 1, c :: rest =>
      if p.isPrefixOf (c :: rest) then
        r ++ replaceFuel p r fuel (rest.drop (p.length - 1))
      else
        c :: replaceFuel p r fuel rest

/-- `t.replace(p, r)` from the Rust standard library.  For an empty pattern
Rust inserts the replacement at every character boundary. -/
def rustReplace (t p r : List Char) : List Char :=
  if p.isEmpty then r ++ t.flatMap (fun c => c :: r)
  else replaceFuel p r t.length t

/-!
## EditValidator — `validate_edit` (ai_tools.rs, lines 113–159)

The Rust command returns `EditValidation { ok, error: Option<String>,
lines_changed }` where the error strings are distinct fixed messages per
failure mode (the NotUnique message interpolates the occurrence count, the
TooLarge message the line count).  We abstract each message as a tagged
variant carrying exactly the interpolated data.
-/

/-- The three distinct `error` messages `validate_edit` can produce,
abstracted as tags carrying the numbers interpolated into the message. -/
inductive EditError
  | NotFound
  | NotUnique (occurrences : Nat)
  | TooLarge (lines_changed : Nat)
deriving DecidableEq, Repr

/-- `EditValidation` from ai_tools.rs. -/
structure EditValidation where
  ok : Bool
  error : Option EditError
  lines_changed : Nat
deriving DecidableEq, Repr

/-- `validate_edit` from ai_tools.rs (lines 113–159).  The Rust command only
clones the current code out of the state and never writes back, so it is a
pure function of the current text. -/
def validate_edit (current_code old_string new_string : List Char) :
    EditValidation :=
  if rustContains current_code old_string = false then
    { ok := false, error := some .NotFound, lines_changed := 0 }
  else
    let occurrences := rustCountMatches current_code old_string
    if occurrences > 1 then
      { ok := false, error := some (.NotUnique occurrences), lines_changed := 0 }
    else
      let old_lines := (rustLines old_string).length
      let new_lines := (rustLines new_string).length
      let lines_changed := max old_lines new_lines
      if lines_changed > 120 then
        { ok := false, error := some (.TooLarge lines_changed), lines_changed }
      else
        { ok := true, error := none, lines_changed }

/-!
## CheckpointHistory — `EditorHistory` (history.rs)

The `VecDeque<EditorCheckpoint>` is modelled as a `List` whose head is the
front of the deque: `truncate n` is `take n`, `push_back` is append,
`pop_front` is `drop 1`.  `uuid::Uuid::new_v4()` and
`chrono::Utc::now().timestamp_millis()` are external inputs and are passed
in as explicit arguments to `create_checkpoint`.

The Rust navigation methods mutate `self` and return `Option<&
EditorCheckpoint>`; they are modelled as functions returning the option
together with the post-state.
-/

/-- `MAX_CHECKPOINTS` from history.rs. -/
def MAX_CHECKPOINTS : Nat := 50

/-- `EditorHistory` from history.rs. -/
structure EditorHistory where
  checkpoints : List EditorCheckpoint
  current_index : Option Nat
deriving DecidableEq, Repr

namespace EditorHistory

/-- `EditorHistory::new`. -/
def new : EditorHistory := { checkpoints := [], current_index := none }

/-- `EditorHistory::create_checkpoint` (history.rs lines 28–65), with the
freshly generated uuid and timestamp supplied as arguments.  Returns the new
checkpoint id together with the post-state. -/
def create_checkpoint (h : EditorHistory) (id : List Char) (timestamp : Int)
    (code : List Char) (diagnostics : List Diagnostic) (description : List Char)
    (change_type : ChangeType) : List Char × EditorHistory :=
  let checkpoint : EditorCheckpoint :=
    { id := id, timestamp := timestamp, code := code,
      diagnostics := diagnostics, description := description,
      change_type := change_type }
  let truncated :=
    match h.current_index with
    | some current => h.checkpoints.take (current + 1)
    | none => h.checkpoints
  let pushed := truncated ++ [checkpoint]
  let bounded := if pushed.length > MAX_CHECKPOINTS then pushed.drop 1 else pushed
  (id, { checkpoints := bounded, current_index := none })

/-- `EditorHistory::get_current` (history.rs lines 68–74). -/
def get_current (h : EditorHistory) : Option EditorCheckpoint :=
  match h.current_index with
  | some index => h.checkpoints.get? index
  | none => h.checkpoints.getLast?

/-- `EditorHistory::undo` (history.rs lines 77–101).  The early-return paths
leave the state untouched; on success the cursor is set before the lookup,
exactly as in the source. -/
def undo (h : EditorHistory) : Option EditorCheckpoint × EditorHistory :=
  if h.checkpoints.isEmpty then (none, h)
  else
    match h.current_index with
    | some current =>
        if current > 0 then
          let new_index := current - 1
          (h.checkpoints.get? new_index, { h with current_index := some new_index })
        else (none, h)
    | none =>
        if h.checkpoints.length > 1 then
          let new_index := h.checkpoints.length - 2
          (h.checkpoints.get? new_index, { h with current_index := some new_index })
        else (none, h)

/-- `EditorHistory::redo` (history.rs lines 104–117). -/
def redo (h : EditorHistory) : Option EditorCheckpoint × EditorHistory :=
  match h.current_index with
  | some current =>
      let new_index := current + 1
      if new_index < h.checkpoints.length then
        (h.checkpoints.get? new_index, { h with current_index := some new_index })
      else if new_index = h.checkpoints.length then
        (h.checkpoints.getLast?, { h with current_index := none })
      else (none, h)
  | none => (none, h)

/-- `EditorHistory::get_by_id` (history.rs lines 125–127). -/
def get_by_id (h : EditorHistory) (id : List Char) : Option EditorCheckpoint :=
  h.checkpoints.find? (fun c => c.id == id)

/-- `EditorHistory::restore_to` (history.rs lines 130–137). -/
def restore_to (h : EditorHistory) (id : List Char) :
    Option EditorCheckpoint × EditorHistory :=
  match h.checkpoints.findIdx? (fun c => c.id == id) with
  | some index => (h.checkpoints.get? index, { h with current_index := some index })
  | none => (none, h)

/-- `EditorHistory::clear` (history.rs lines 200–203). -/
def clear (_h : EditorHistory) : EditorHistory :=
  { checkpoints := [], current_index := none }

end EditorHistory

/-!
## TransactionalEditor — `apply_edit` (ai_tools.rs, lines 163–286)

Only the fields of `EditorState` that `apply_edit` reads or writes are
modelled (`current_code` and `diagnostics`; the remaining fields are never
touched by the edit pipeline).  `HistoryState` is always managed — lib.rs
registers it at startup — so the `try_state` lookup succeeds and the
checkpoint is created on every call.  The external verifier `test_compile`
is a parameter returning either a fresh diagnostic list or an invocation
error message.
-/

/-- The mutable document fields of `EditorState` (ai_tools.rs lines 9–15)
that `apply_edit` touches. -/
structure EditorState where
  current_code : List Char
  diagnostics : List Diagnostic
deriving DecidableEq, Repr

/-- The process-wide state seen by `apply_edit`: the document plus the
managed checkpoint history. -/
structure AppState where
  editor : EditorState
  history : EditorHistory
deriving DecidableEq, Repr

/-- The distinct `error` messages `apply_edit` can produce, abstracted as
tags carrying the interpolated data. -/
inductive ApplyError
  | NotFound
  | NotUnique (occurrences : Nat)
  | CompileFailed (msg : List Char)
  | NewErrors
deriving DecidableEq, Repr

/-- `ApplyEditResult` from ai_tools.rs. -/
structure ApplyEditResult where
  success : Bool
  error : Option ApplyError
  diagnostics : List Diagnostic
  checkpoint_id : Option (List Char)
deriving DecidableEq, Repr

/-- Number of `Error`-severity diagnostics in a list (the
`iter().filter(|d| d.severity.is_error()).count()` idiom of ai_tools.rs). -/
def errorCount (ds : List Diagnostic) : Nat :=
  (ds.filter (fun d => d.severity.is_error)).length

/-- `apply_edit` from ai_tools.rs (lines 163–286).  `cp_id` and `cp_ts` are
the uuid and timestamp generated for the pre-edit checkpoint; `compile` is
the external `test_compile` invocation on the candidate text.  Returns the
command result together with the post-state. -/
def apply_edit (st : AppState) (old_string new_string : List Char)
    (cp_id : List Char) (cp_ts : Int)
    (compile : List Char → Except (List Char) (List Diagnostic)) :
    ApplyEditResult × AppState :=
  let current_code := st.editor.current_code
  -- Create checkpoint before applying AI edit
  let diagnostics := st.editor.diagnostics
  let created := st.history.create_checkpoint cp_id cp_ts current_code
    diagnostics "Before AI edit".toList ChangeType.Ai
  let checkpoint_id : Option (List Char) := some created.1
  let st1 : AppState := { st with history := created.2 }
  -- Check if old_string exists
  if rustContains current_code old_string = false then
    ({ success := false, error := some .NotFound, diagnostics := [],
       checkpoint_id := none }, st1)
  else
    -- Check uniqueness
    let occurrences := rustCountMatches current_code old_string
    if occurrences > 1 then
      ({ success := false, error := some (.NotUnique occurrences),
         diagnostics := [], checkpoint_id := none }, st1)
    else
      -- Apply the replacement
      let new_code := rustReplace current_code old_string new_string
      -- Test compile with OpenSCAD
      let old_error_count := errorCount st.editor.diagnostics
      match compile new_code with
      | .error e =>
          ({ success := false, error := some (.CompileFailed e),
             diagnostics := [], checkpoint_id := none }, st1)
      | .ok test_diagnostics =>
          let new_error_count := errorCount test_diagnostics
          -- Check if new errors were introduced
          if new_error_count > old_error_count then
            ({ success := false, error := some .NewErrors,
               diagnostics := test_diagnostics, checkpoint_id := none }, st1)
          else
            -- Apply changes to state
            ({ success := true, error := none,
               diagnostics := test_diagnostics, checkpoint_id := checkpoint_id },
             { st1 with editor := { current_code := new_code,
                                    diagnostics := test_diagnostics } })

/-!
## ContentCache — `RenderCache` (utils/cache.rs)

The `HashMap<String, CacheEntry>` behind the mutex is modelled as an
association list with unique keys: `insert` replaces any existing binding,
`get` looks the key up, `retain` filters.  The filesystem existence check
(`PathBuf::exists`) and the clock (`SystemTime::now` as seconds since the
epoch) are explicit parameters.
-/

/-- `CACHE_VERSION` from cache.rs. -/
def CACHE_VERSION : Nat := 2

/-- `CacheEntry` from cache.rs (`PathBuf` and the `kind` string modelled as
character lists, the `u64` timestamp as a natural number). -/
structure CacheEntry where
  version : Nat
  output_path : List Char
  timestamp : Nat
  kind : List Char
  diagnostics : List Diagnostic
deriving DecidableEq, Repr

/-- `RenderCache` from cache.rs: the `HashMap` as an association list. -/
structure RenderCache where
  entries : List (List Char × CacheEntry)
deriving DecidableEq, Repr

/-- `HashMap::get` on the association list. -/
def mapGet (m : List (List Char × CacheEntry)) (k : List Char) :
    Option CacheEntry :=
  (m.find? (fun p => p.1 == k)).map (fun p => p.2)

/-- `HashMap::insert` on the association list: the new binding replaces any
existing binding for the key. -/
def mapInsert (m : List (List Char × CacheEntry)) (k : List Char)
    (v : CacheEntry) : List (List Char × CacheEntry) :=
  (k, v) :: m.filter (fun p => !(p.1 == k))

namespace RenderCache

/-- `RenderCache::new`. -/
def new : RenderCache := { entries := [] }

/-- The byte stream fed to the SHA-256 hasher by
`RenderCache::generate_key` (cache.rs lines 40–47): the successive
`hasher.update` calls concatenate their arguments without any delimiter or
length prefix. -/
def keyBytes (source backend view : List Char) (render_mesh : Bool) :
    List Char :=
  source ++ backend ++ view ++ (if render_mesh then "mesh" else "image").toList

/-- `RenderCache::generate_key` (cache.rs lines 40–47): the hex digest of
the SHA-256 hash of the concatenated inputs.  The hash itself is an external
deterministic function of the fed byte stream, passed as `sha256hex`. -/
def generate_key (sha256hex : List Char → List Char)
    (source backend view : List Char) (render_mesh : Bool) : List Char :=
  sha256hex (keyBytes source backend view render_mesh)

/-- `RenderCache::get` (cache.rs lines 50–65); `fs_exists` is the
`PathBuf::exists` check at lookup time. -/
def get (c : RenderCache) (fs_exists : List Char → Bool) (key : List Char) :
    Option CacheEntry :=
  match mapGet c.entries key with
  | none => none
  | some entry =>
      -- Invalidate entries with old version
      if entry.version ≠ CACHE_VERSION then none
      -- Verify the cached file still exists
      else if fs_exists entry.output_path then some entry
      else none

/-- `RenderCache::set` (cache.rs lines 68–92); `now` is the current time in
seconds since the epoch. -/
def set (c : RenderCache) (now : Nat) (key : List Char)
    (output_path : List Char) (kind : List Char)
    (diagnostics : List Diagnostic) : RenderCache :=
  { entries := mapInsert c.entries key
      { version := CACHE_VERSION, output_path := output_path,
        timestamp := now, kind := kind, diagnostics := diagnostics } }

/-- `RenderCache::evict_old` (cache.rs lines 95–107): retain entries with
`now.saturating_sub(timestamp) < max_age_secs` (natural-number subtraction
is saturating). -/
def evict_old (c : RenderCache) (now : Nat) (max_age_secs : Nat) :
    RenderCache :=
  { entries := c.entries.filter (fun p => now - p.2.timestamp < max_age_secs) }

end RenderCache

/-!
## Helper lemmas
-/

/-- Rust `contains` with an empty pattern is always true. -/
theorem rustContains_nil_pattern (t : List Char) : rustContains t [] = true := by
  cases t <;> simp [rustContains, List.isPrefixOf]

/-- A positive non-overlapping match count implies the pattern occurs. -/
theorem rustContains_of_countMatchesFuel_pos (p : List Char) :
    ∀ (fuel : Nat) (t : List Char),
      1 ≤ countMatchesFuel p fuel t → rustContains t p = true := by
  intro fuel
  induction fuel with
  | zero => intro t h; simp [countMatchesFuel] at h
  | succ n ih =>
      intro t h
      cases t with
      | nil => simp [countMatchesFuel] at h
      | cons c rest =>
          by_cases hp : p.isPrefixOf (c :: rest)
          · simp [rustContains, hp]
          · simp only [countMatchesFuel, if_neg hp] at h
            simp [rustContains, ih rest h]

/-- If `str::matches` counts at least one occurrence then `str::contains`
holds. -/
theorem rustContains_of_count_pos (t p : List Char)
    (h : 1 ≤ rustCountMatches t p) : rustContains t p = true := by
  unfold rustCountMatches at h
  by_cases hp : p.isEmpty
  · cases p with
    | nil => exact rustContains_nil_pattern t
    | cons a as => simp [List.isEmpty] at hp
  · rw [if_neg hp] at h
    exact rustContains_of_countMatchesFuel_pos p t.length t h

/-- Reduction of `validate_edit` once the existence and uniqueness guards
pass: only the size check remains. -/
theorem validate_edit_eq_of_found_unique
    (current_code old_string new_string : List Char)
    (hc : rustContains current_code old_string = true)
    (ho : ¬ 1 < rustCountMatches current_code old_string) :
    validate_edit current_code old_string new_string =
      if 120 < max (rustLines old_string).length (rustLines new_string).length
      then { ok := false,
             error := some (.TooLarge (max (rustLines old_string).length
               (rustLines new_string).length)),
             lines_changed := max (rustLines old_string).length
               (rustLines new_string).length }
      else { ok := true, error := none,
             lines_changed := max (rustLines old_string).length
               (rustLines new_string).length } := by
  simp only [validate_edit, hc]
  rw [if_neg (by simp), if_neg ho]

/-!
## Claims C4 and C5 — the EditValidator
-/

/-- C5: `validate_edit` fails with `NotFound` exactly when `old_string` is
not a substring of the current text, fails with `NotUnique` exactly when
`old_string` occurs more than once (non-overlapping `str::matches`
counting), and the reported occurrence count is exactly the number of
occurrences.  The Rust command only reads a clone of the current text and
never writes any state, so the embedding is a pure function and failure
leaves all state untouched by construction. -/
theorem validate_edit_not_found_not_unique
    (current_code old_string new_string : List Char) :
    ((validate_edit current_code old_string new_string).error =
        some .NotFound ↔ rustContains current_code old_string = false) ∧
    ((validate_edit current_code old_string new_string).error =
        some (.NotUnique (rustCountMatches current_code old_string)) ↔
        1 < rustCountMatches current_code old_string) ∧
    (∀ k, (validate_edit current_code old_string new_string).error =
        some (.NotUnique k) → k = rustCountMatches current_code old_string) := by
  cases hc : rustContains current_code old_string with
  | false =>
      refine ⟨by simp [validate_edit, hc], ⟨?_, ?_⟩, ?_⟩
      · intro he; exfalso; simp [validate_edit, hc] at he
      · intro hlt
        exact absurd (rustContains_of_count_pos current_code old_string
          (by omega)) (by simp [hc])
      · intro k hk; exfalso; simp [validate_edit, hc] at hk
  | true =>
      by_cases ho : rustCountMatches current_code old_string > 1
      · refine ⟨by simp [validate_edit, hc, ho], by simp [validate_edit, hc, ho], ?_⟩
        intro k hk
        simp [validate_edit, hc, ho] at hk
        omega
      · rw [validate_edit_eq_of_found_unique current_code old_string
          new_string hc ho]
        refine ⟨?_, ?_, ?_⟩
        · split <;> simp_all
        · split <;> simp_all
        · intro k hk
          split at hk <;> simp_all

/-- Witness for C5 at concrete inputs: in the text
`cube([1,1,1]); cube([2,2,2]);` the pattern `cube` occurs twice, so the
validator reports `NotUnique 2`. -/
theorem validate_edit_not_found_not_unique_witness :
    (validate_edit "cube([1,1,1]); cube([2,2,2]);".toList "cube".toList
        "spher".toList).error = some (.NotUnique 2) := by
  have h := (validate_edit_not_found_not_unique
    "cube([1,1,1]); cube([2,2,2]);".toList "cube".toList "spher".toList).2.1
  have hc : rustCountMatches "cube([1,1,1]); cube([2,2,2]);".toList
      "cube".toList = 2 := by decide
  rw [hc] at h
  exact h.mpr (by omega)

/-- C4: when the old text is found exactly once, `lines_changed` is the
maximum of the Rust `lines()` counts of the old and the new text, the
result is a `TooLarge` failure exactly when that maximum exceeds 120, and
the edit is accepted exactly when it is at most 120 (boundary inclusive). -/
theorem validate_edit_size_ceiling
    (current_code old_string new_string : List Char)
    (huniq : rustCountMatches current_code old_string = 1) :
    (validate_edit current_code old_string new_string).lines_changed =
      max (rustLines old_string).length (rustLines new_string).length ∧
    ((validate_edit current_code old_string new_string).error =
        some (.TooLarge (max (rustLines old_string).length
          (rustLines new_string).length)) ↔
        120 < max (rustLines old_string).length (rustLines new_string).length) ∧
    ((validate_edit current_code old_string new_string).ok = true ↔
        max (rustLines old_string).length (rustLines new_string).length ≤ 120) := by
  have hc : rustContains current_code old_string = true :=
    rustContains_of_count_pos current_code old_string (by omega)
  rw [validate_edit_eq_of_found_unique current_code old_string new_string hc
    (by omega)]
  split
  · next hgt => exact ⟨rfl, by simp; omega, by simp; omega⟩
  · next hle => exact ⟨rfl, by simp; omega, by simp; omega⟩

set_option maxRecDepth 4000 in
/-- Witness for C4: an edit replacing one line by 121 lines is rejected as
too large, while the same edit with 120 lines is accepted. -/
theorem validate_edit_size_ceiling_witness :
    ((validate_edit "abc".toList "b".toList
        (List.replicate 121 '\n')).error =
      some (.TooLarge 121)) ∧
    (validate_edit "abc".toList "b".toList
        (List.replicate 120 '\n')).ok = true := by
  constructor
  · have h := (validate_edit_size_ceiling "abc".toList "b".toList
      (List.replicate 121 '\n') (by decide)).2.1
    have hl : max (rustLines "b".toList).length
        (rustLines (List.replicate 121 '\n')).length = 121 := by decide
    rw [hl] at h
    exact h.mpr (by omega)
  · have h := (validate_edit_size_ceiling "abc".toList "b".toList
      (List.replicate 120 '\n') (by decide)).2.2
    have hl : max (rustLines "b".toList).length
        (rustLines (List.replicate 120 '\n')).length = 120 := by decide
    rw [hl] at h
    exact h.mpr (by omega)

/-!
## Claims C1, C2 and C6 — the TransactionalEditor
-/

/-- The capacity-bounding step of `create_checkpoint` keeps the freshly
appended checkpoint at the back. -/
theorem getLast?_bound_helper (l : List EditorCheckpoint)
    (cp : EditorCheckpoint) :
    (if (l ++ [cp]).length > MAX_CHECKPOINTS then (l ++ [cp]).drop 1
     else l ++ [cp]).getLast? = some cp := by
  split
  · next hlen =>
      rw [List.drop_append_of_le_length (by
        cases l with
        | nil => simp [MAX_CHECKPOINTS] at hlen
        | cons a as => simp)]
      exact List.getLast?_concat _
  · exact List.getLast?_concat _

/-- After `create_checkpoint`, the newly created checkpoint is the last
element of the stored deque, capacity eviction notwithstanding. -/
theorem create_checkpoint_getLast (h : EditorHistory) (id : List Char)
    (ts : Int) (code : List Char) (diags : List Diagnostic)
    (descr : List Char) (ct : ChangeType) :
    ((h.create_checkpoint id ts code diags descr ct).2).checkpoints.getLast? =
      some ⟨id, ts, code, diags, descr, ct⟩ := by
  simp only [EditorHistory.create_checkpoint]
  exact getLast?_bound_helper _ _

/-- `create_checkpoint` always resets the cursor to the head. -/
theorem create_checkpoint_current_index (h : EditorHistory) (id : List Char)
    (ts : Int) (code : List Char) (diags : List Diagnostic)
    (descr : List Char) (ct : ChangeType) :
    ((h.create_checkpoint id ts code diags descr ct).2).current_index = none :=
  rfl

/-- C1: when the old text occurs exactly once and the verifier runs
successfully returning the fresh list `fresh`, `apply_edit` commits (the
document text becomes the replacement and the diagnostics become `fresh`)
exactly when the fresh error count does not exceed the previous one; on a
strict increase it fails, carries `fresh` in the result, and leaves the
document untouched. -/
theorem apply_edit_commit_iff_no_regression (st : AppState)
    (old_string new_string cp_id : List Char) (cp_ts : Int)
    (compile : List Char → Except (List Char) (List Diagnostic))
    (fresh : List Diagnostic)
    (huniq : rustCountMatches st.editor.current_code old_string = 1)
    (hcompile : compile (rustReplace st.editor.current_code old_string
      new_string) = .ok fresh) :
    (errorCount fresh ≤ errorCount st.editor.diagnostics →
      (apply_edit st old_string new_string cp_id cp_ts compile).1.success = true ∧
      (apply_edit st old_string new_string cp_id cp_ts compile).2.editor.current_code =
        rustReplace st.editor.current_code old_string new_string ∧
      (apply_edit st old_string new_string cp_id cp_ts compile).2.editor.diagnostics =
        fresh) ∧
    (errorCount st.editor.diagnostics < errorCount fresh →
      (apply_edit st old_string new_string cp_id cp_ts compile).1.success = false ∧
      (apply_edit st old_string new_string cp_id cp_ts compile).1.diagnostics =
        fresh ∧
      (apply_edit st old_string new_string cp_id cp_ts compile).2.editor =
        st.editor) := by
  have hc : rustContains st.editor.current_code old_string = true :=
    rustContains_of_count_pos _ _ (by omega)
  constructor
  · intro hle
    have hgt : ¬ errorCount fresh > errorCount st.editor.diagnostics := by omega
    simp [apply_edit, hc, huniq, hcompile, hgt]
  · intro hlt
    have hgt : errorCount fresh > errorCount st.editor.diagnostics := hlt
    simp [apply_edit, hc, huniq, hcompile, hgt]

/-- Witness for C1: the concrete scenario of the spec — replacing
`10,10,10` by `20,20,20` with a verifier reporting no errors commits the
edit. -/
theorem apply_edit_commit_iff_no_regression_witness :
    (apply_edit ⟨⟨"cube([10,10,10]);".toList, []⟩, EditorHistory.new⟩
        "10,10,10".toList "20,20,20".toList "cp1".toList 0
        (fun _ => Except.ok [])).1.success = true ∧
    (apply_edit ⟨⟨"cube([10,10,10]);".toList, []⟩, EditorHistory.new⟩
        "10,10,10".toList "20,20,20".toList "cp1".toList 0
        (fun _ => Except.ok [])).2.editor.current_code =
      rustReplace "cube([10,10,10]);".toList "10,10,10".toList
        "20,20,20".toList ∧
    (apply_edit ⟨⟨"cube([10,10,10]);".toList, []⟩, EditorHistory.new⟩
        "10,10,10".toList "20,20,20".toList "cp1".toList 0
        (fun _ => Except.ok [])).2.editor.diagnostics = [] :=
  (apply_edit_commit_iff_no_regression
    ⟨⟨"cube([10,10,10]);".toList, []⟩, EditorHistory.new⟩
    "10,10,10".toList "20,20,20".toList "cp1".toList 0
    (fun _ => Except.ok []) [] (by decide) rfl).1 (by decide)

/-- C2: whenever `apply_edit` reports failure — old text absent, old text
not unique, verifier invocation error, or error-count regression — the
document (text and diagnostics) after the call equals the document before
the call. -/
theorem apply_edit_atomic_on_failure (st : AppState)
    (old_string new_string cp_id : List Char) (cp_ts : Int)
    (compile : List Char → Except (List Char) (List Diagnostic))
    (hfail : (apply_edit st old_string new_string cp_id cp_ts compile).1.success =
      false) :
    (apply_edit st old_string new_string cp_id cp_ts compile).2.editor =
      st.editor := by
  cases hc : rustContains st.editor.current_code old_string with
  | false => simp [apply_edit, hc]
  | true =>
      by_cases ho : rustCountMatches st.editor.current_code old_string > 1
      · simp [apply_edit, hc, ho]
      · cases hcomp : compile
            (rustReplace st.editor.current_code old_string new_string) with
        | error e => simp [apply_edit, hc, ho, hcomp]
        | ok ds =>
            by_cases herr : errorCount ds > errorCount st.editor.diagnostics
            · simp [apply_edit, hc, ho, hcomp, herr]
            · exfalso
              simp [apply_edit, hc, ho, hcomp, herr] at hfail

/-- Witness for C2: an edit whose old text is absent fails and leaves both
document fields unchanged. -/
theorem apply_edit_atomic_on_failure_witness :
    (apply_edit ⟨⟨"cube();".toList, []⟩, EditorHistory.new⟩
        "sphere".toList "x".toList "cp1".toList 0
        (fun _ => Except.ok [])).2.editor = ⟨"cube();".toList, []⟩ :=
  apply_edit_atomic_on_failure
    ⟨⟨"cube();".toList, []⟩, EditorHistory.new⟩
    "sphere".toList "x".toList "cp1".toList 0
    (fun _ => Except.ok []) (by decide)

/-- C6: every `apply_edit` call — committing or failing in any of its
failure modes — first records an `Ai`-tagged checkpoint holding the
pre-edit document text and diagnostics, and that checkpoint sits at the
back of the history when the call returns. -/
theorem apply_edit_creates_checkpoint (st : AppState)
    (old_string new_string cp_id : List Char) (cp_ts : Int)
    (compile : List Char → Except (List Char) (List Diagnostic)) :
    (apply_edit st old_string new_string cp_id cp_ts
        compile).2.history.checkpoints.getLast? =
      some ⟨cp_id, cp_ts, st.editor.current_code, st.editor.diagnostics,
        "Before AI edit".toList, ChangeType.Ai⟩ := by
  have hbase := create_checkpoint_getLast st.history cp_id cp_ts
    st.editor.current_code st.editor.diagnostics "Before AI edit".toList
    ChangeType.Ai
  cases hc : rustContains st.editor.current_code old_string with
  | false => simpa [apply_edit, hc] using hbase
  | true =>
      by_cases ho : rustCountMatches st.editor.current_code old_string > 1
      · simpa [apply_edit, hc, ho] using hbase
      · cases hcomp : compile
            (rustReplace st.editor.current_code old_string new_string) with
        | error e => simpa [apply_edit, hc, ho, hcomp] using hbase
        | ok ds =>
            by_cases herr : errorCount ds > errorCount st.editor.diagnostics
            · simpa [apply_edit, hc, ho, hcomp, herr] using hbase
            · simpa [apply_edit, hc, ho, hcomp, herr] using hbase

/-!
## Claims C3 and C10 — the CheckpointHistory state machine
-/

/-- `redo` at the head (cursor `None`) fails and leaves the state
unchanged. -/
theorem redo_none (h : EditorHistory) (hn : h.current_index = none) :
    h.redo = (none, h) := by
  simp [EditorHistory.redo, hn]

/-- C3: creating a checkpoint while the cursor sits at index `i` resets the
cursor to the head, places the new checkpoint at the back, and truncates
away every stored checkpoint beyond index `i` (what precedes the new last
element is a suffix of the kept prefix `0..=i`; below capacity it is exactly
that prefix).  Consequently, after a successful `undo` followed by
`create_checkpoint`, a `redo` fails, returning `None` and leaving the state
unchanged. -/
theorem create_checkpoint_truncates_linear_history :
    (∀ (h : EditorHistory) (i : Nat), h.current_index = some i →
      ∀ (id : List Char) (ts : Int) (code : List Char)
        (diags : List Diagnostic) (descr : List Char) (ct : ChangeType),
        ((h.create_checkpoint id ts code diags descr ct).2).current_index =
          none ∧
        ((h.create_checkpoint id ts code diags descr ct).2).checkpoints.getLast? =
          some ⟨id, ts, code, diags, descr, ct⟩ ∧
        List.IsSuffix
          (((h.create_checkpoint id ts code diags descr ct).2).checkpoints.dropLast)
          (h.checkpoints.take (i + 1)) ∧
        (h.checkpoints.length ≤ MAX_CHECKPOINTS - 1 →
          ((h.create_checkpoint id ts code diags descr ct).2).checkpoints =
            h.checkpoints.take (i + 1) ++ [⟨id, ts, code, diags, descr, ct⟩])) ∧
    (∀ (g : EditorHistory) (id : List Char) (ts : Int) (code : List Char)
        (diags : List Diagnostic) (descr : List Char) (ct : ChangeType),
      (g.undo).1.isSome = true →
      ((g.undo).2.create_checkpoint id ts code diags descr ct).2.redo =
        (none, ((g.undo).2.create_checkpoint id ts code diags descr ct).2)) := by
  constructor
  · intro h i hi id ts code diags descr ct
    refine ⟨create_checkpoint_current_index h id ts code diags descr ct,
      create_checkpoint_getLast h id ts code diags descr ct, ?_, ?_⟩
    · simp only [EditorHistory.create_checkpoint, hi]
      split
      · next hlen =>
          have h1 : 1 ≤ (h.checkpoints.take (i + 1)).length := by
            simp only [List.length_append, List.length_cons, List.length_nil,
              MAX_CHECKPOINTS] at hlen
            omega
          rw [List.drop_append_of_le_length h1, List.dropLast_concat]
          exact List.drop_suffix 1 _
      · rw [List.dropLast_concat]
    · intro hcap
      simp only [EditorHistory.create_checkpoint, hi]
      rw [if_neg (by
        simp only [List.length_append, List.length_take, List.length_cons,
          List.length_nil, MAX_CHECKPOINTS]
        simp only [MAX_CHECKPOINTS] at hcap
        omega)]
  · intro g id ts code diags descr ct _
    exact redo_none _ (create_checkpoint_current_index _ id ts code diags
      descr ct)

/-- A two-checkpoint history after one successful undo: the cursor sits on
index 0. -/
def twoCheckpointHistory : EditorHistory :=
  ((EditorHistory.new.create_checkpoint "a".toList 0 "one".toList []
      "init".toList .User).2.create_checkpoint "b".toList 1 "two".toList []
      "edit".toList .User).2

/-- Witness for C3: from a concrete two-checkpoint history, undo succeeds,
and creating a fresh checkpoint afterwards resets the cursor and makes redo
fail. -/
theorem create_checkpoint_truncates_linear_history_witness :
    (twoCheckpointHistory.undo.2.create_checkpoint "c".toList 2
        "three".toList [] "ai".toList .Ai).2.current_index = none ∧
    ((twoCheckpointHistory.undo.2.create_checkpoint "c".toList 2
        "three".toList [] "ai".toList .Ai).2.redo =
      (none, (twoCheckpointHistory.undo.2.create_checkpoint "c".toList 2
        "three".toList [] "ai".toList .Ai).2)) :=
  ⟨(create_checkpoint_truncates_linear_history.1 twoCheckpointHistory.undo.2
      0 (by decide) "c".toList 2 "three".toList [] "ai".toList .Ai).1,
   create_checkpoint_truncates_linear_history.2 twoCheckpointHistory
     "c".toList 2 "three".toList [] "ai".toList .Ai (by decide)⟩

/-- C10 invariant: whenever the cursor is set, it addresses a stored
checkpoint. -/
def cursorWF (h : EditorHistory) : Prop :=
  ∀ i, h.current_index = some i → i < h.checkpoints.length

/-- The operations of the history state machine, with the external inputs
of `create_checkpoint` (uuid, timestamp, snapshot payload) bundled into the
operation. -/
inductive HistOp
  | create (id : List Char) (ts : Int) (code : List Char)
      (diags : List Diagnostic) (descr : List Char) (ct : ChangeType)
  | undo
  | redo
  | restore (id : List Char)
  | clear

/-- Execute one operation, keeping the post-state. -/
def applyOp (h : EditorHistory) : HistOp → EditorHistory
  | .create id ts code diags descr ct =>
      (h.create_checkpoint id ts code diags descr ct).2
  | .undo => h.undo.2
  | .redo => h.redo.2
  | .restore id => (h.restore_to id).2
  | .clear => h.clear

/-- Execute a sequence of operations from a starting state. -/
def runOps (h : EditorHistory) (ops : List HistOp) : EditorHistory :=
  ops.foldl applyOp h

/-- `undo` preserves cursor validity. -/
theorem cursorWF_undo (h : EditorHistory) (hw : cursorWF h) :
    cursorWF h.undo.2 := by
  intro i hi
  by_cases he : h.checkpoints.isEmpty
  · rw [show h.undo.2 = h by simp [EditorHistory.undo, he]] at hi ⊢
    exact hw i hi
  · cases hc : h.current_index with
    | some current =>
        by_cases hpos : current > 0
        · have hred : h.undo.2 = { h with current_index := some (current - 1) } := by
            simp [EditorHistory.undo, he, hc, hpos]
          rw [hred] at hi ⊢
          simp at hi ⊢
          have := hw current hc
          omega
        · have hred : h.undo.2 = h := by simp [EditorHistory.undo, he, hc, hpos]
          rw [hred] at hi ⊢
          exact hw i hi
    | none =>
        by_cases hlen : h.checkpoints.length > 1
        · have hred : h.undo.2 =
              { h with current_index := some (h.checkpoints.length - 2) } := by
            simp [EditorHistory.undo, he, hc, hlen]
          rw [hred] at hi ⊢
          simp at hi ⊢
          omega
        · have hred : h.undo.2 = h := by simp [EditorHistory.undo, he, hc, hlen]
          rw [hred] at hi ⊢
          exact hw i hi

/-- `redo` preserves cursor validity. -/
theorem cursorWF_redo (h : EditorHistory) (hw : cursorWF h) :
    cursorWF h.redo.2 := by
  intro i hi
  cases hc : h.current_index with
  | none =>
      rw [show h.redo.2 = h by simp [EditorHistory.redo, hc]] at hi ⊢
      exact hw i hi
  | some current =>
      by_cases hlt : current + 1 < h.checkpoints.length
      · have hred : h.redo.2 = { h with current_index := some (current + 1) } := by
          simp [EditorHistory.redo, hc, hlt]
        rw [hred] at hi ⊢
        simp at hi ⊢
        omega
      · by_cases heq : current + 1 = h.checkpoints.length
        · have hred : h.redo.2 = { h with current_index := none } := by
            simp [EditorHistory.redo, hc, hlt, heq]
          rw [hred] at hi
          simp at hi
        · have hred : h.redo.2 = h := by simp [EditorHistory.redo, hc, hlt, heq]
          rw [hred] at hi ⊢
          exact hw i hi

/-- `restore_to` preserves cursor validity: a found index is in range. -/
theorem cursorWF_restore_to (h : EditorHistory) (hw : cursorWF h)
    (id : List Char) : cursorWF (h.restore_to id).2 := by
  intro i hi
  cases hf : h.checkpoints.findIdx? (fun c => c.id == id) with
  | none =>
      rw [show (h.restore_to id).2 = h by
        simp [EditorHistory.restore_to, hf]] at hi ⊢
      exact hw i hi
  | some index =>
      have hred : (h.restore_to id).2 = { h with current_index := some index } := by
        simp [EditorHistory.restore_to, hf]
      rw [hred] at hi ⊢
      simp at hi ⊢
      have hbound := (List.findIdx?_eq_some_iff_findIdx_eq.mp hf).1
      omega

/-- Every single operation preserves cursor validity. -/
theorem cursorWF_applyOp (h : EditorHistory) (hw : cursorWF h) (op : HistOp) :
    cursorWF (applyOp h op) := by
  cases op with
  | create id ts code diags descr ct =>
      intro i hi
      rw [applyOp, create_checkpoint_current_index] at hi
      cases hi
  | undo => exact cursorWF_undo h hw
  | redo => exact cursorWF_redo h hw
  | restore id => exact cursorWF_restore_to h hw id
  | clear =>
      intro i hi
      simp [applyOp, EditorHistory.clear] at hi

/-- C10: in every state reachable from the empty history by any sequence of
`create_checkpoint`, `undo`, `redo`, `restore_to` and `clear`, a set cursor
`Some i` satisfies `i <` the number of stored checkpoints, and the
checkpoint lookup at the cursor therefore succeeds — no operation ever
addresses an out-of-range index. -/
theorem history_cursor_always_in_range :
    ∀ (ops : List HistOp) (i : Nat),
      (runOps EditorHistory.new ops).current_index = some i →
      i < (runOps EditorHistory.new ops).checkpoints.length ∧
      ((runOps EditorHistory.new ops).checkpoints.get? i).isSome = true := by
  have hrun : ∀ (ops : List HistOp) (h : EditorHistory),
      cursorWF h → cursorWF (runOps h ops) := by
    intro ops
    induction ops with
    | nil => intro h hw; exact hw
    | cons op rest ih =>
        intro h hw
        exact ih (applyOp h op) (cursorWF_applyOp h hw op)
  intro ops i hi
  have hw : cursorWF (runOps EditorHistory.new ops) :=
    hrun ops EditorHistory.new (by intro j hj; simp [EditorHistory.new] at hj)
  have hlt := hw i hi
  refine ⟨hlt, ?_⟩
  rw [List.get?_eq_getElem?, List.getElem?_eq_getElem hlt]
  rfl

/-- Witness for C10: after two checkpoint creations and one undo the cursor
is `some 0`, in range of the two stored checkpoints. -/
theorem history_cursor_always_in_range_witness :
    0 < (runOps EditorHistory.new
        [HistOp.create "a".toList 0 "one".toList [] "init".toList .User,
         HistOp.create "b".toList 1 "two".toList [] "edit".toList .User,
         HistOp.undo]).checkpoints.length ∧
    ((runOps EditorHistory.new
        [HistOp.create "a".toList 0 "one".toList [] "init".toList .User,
         HistOp.create "b".toList 1 "two".toList [] "edit".toList .User,
         HistOp.undo]).checkpoints.get? 0).isSome = true :=
  history_cursor_always_in_range
    [HistOp.create "a".toList 0 "one".toList [] "init".toList .User,
     HistOp.create "b".toList 1 "two".toList [] "edit".toList .User,
     HistOp.undo] 0 (by decide)

/-!
## Claims C7, C8 and C9 — the ContentCache
-/

/-- C7: `set` followed by `get` of the same key returns an entry whose
`kind` and `diagnostics` are exactly those stored (indeed the whole stored
entry), provided the file at the stored location exists at lookup time; and
`get` returns `None` whenever the key is absent, the stored version differs
from `CACHE_VERSION`, or the stored output path no longer exists. -/
theorem cache_get_set_roundtrip_and_validity (c : RenderCache)
    (fs_exists : List Char → Bool) (now : Nat)
    (key loc kind : List Char) (diags : List Diagnostic) :
    (fs_exists loc = true →
      (c.set now key loc kind diags).get fs_exists key =
        some ⟨CACHE_VERSION, loc, now, kind, diags⟩) ∧
    (mapGet c.entries key = none → c.get fs_exists key = none) ∧
    (∀ e, mapGet c.entries key = some e → e.version ≠ CACHE_VERSION →
      c.get fs_exists key = none) ∧
    (∀ e, mapGet c.entries key = some e → fs_exists e.output_path = false →
      c.get fs_exists key = none) := by
  refine ⟨?_, ?_, ?_, ?_⟩
  · intro hfs
    simp [RenderCache.get, RenderCache.set, mapGet, mapInsert, List.find?, hfs]
  · intro habs
    simp [RenderCache.get, habs]
  · intro e he hv
    simp [RenderCache.get, he, hv]
  · intro e he hfs
    by_cases hv : e.version = CACHE_VERSION
    · simp [RenderCache.get, he, hv, hfs]
    · simp [RenderCache.get, he, hv]

/-- Witness for C7: a concrete `set`/`get` round-trip on an empty cache
when the file exists, and a miss after the file disappears. -/
theorem cache_get_set_roundtrip_and_validity_witness :
    (RenderCache.new.set 7 "k".toList "/tmp/out.png".toList "png".toList
        []).get (fun _ => true) "k".toList =
      some ⟨CACHE_VERSION, "/tmp/out.png".toList, 7, "png".toList, []⟩ ∧
    (RenderCache.new.set 7 "k".toList "/tmp/out.png".toList "png".toList
        []).get (fun _ => false) "k".toList = none :=
  ⟨(cache_get_set_roundtrip_and_validity RenderCache.new (fun _ => true) 7
      "k".toList "/tmp/out.png".toList "png".toList []).1 rfl,
   (cache_get_set_roundtrip_and_validity
      (RenderCache.new.set 7 "k".toList "/tmp/out.png".toList "png".toList [])
      (fun _ => false) 7 "k".toList "/tmp/out.png".toList "png".toList
      []).2.2.2 ⟨CACHE_VERSION, "/tmp/out.png".toList, 7, "png".toList, []⟩
      (by decide) rfl⟩

/-- Counterexample for C8: the hasher input is the undelimited
concatenation of the four fields, so the two distinct input tuples
`(source = "ab", backend = "c")` and `(source = "a", backend = "bc")`
(same view and mesh flag) feed the identical byte stream to SHA-256 and
therefore receive the identical key, refuting injectivity on tuples. -/
theorem generate_key_collision_counterexample :
    ("ab".toList, "c".toList) ≠ ("a".toList, "bc".toList) ∧
    RenderCache.keyBytes "ab".toList "c".toList "3d".toList false =
      RenderCache.keyBytes "a".toList "bc".toList "3d".toList false ∧
    RenderCache.generate_key (fun s => s) "ab".toList "c".toList
        "3d".toList false =
      RenderCache.generate_key (fun s => s) "a".toList "bc".toList
        "3d".toList false := by
  refine ⟨by decide, by decide, by decide⟩

/-- C8 (amended): the key derivation is deterministic — equal input tuples
yield equal keys — and the key depends only on the undelimited
concatenation of the four inputs: whenever two tuples concatenate to the
same byte stream, their keys coincide (for any digest function, hence for
SHA-256), so distinct tuples need not receive distinct keys. -/
theorem generate_key_deterministic_concat_dependent
    (sha256hex : List Char → List Char)
    (s1 b1 v1 : List Char) (m1 : Bool)
    (s2 b2 v2 : List Char) (m2 : Bool) :
    (s1 = s2 → b1 = b2 → v1 = v2 → m1 = m2 →
      RenderCache.generate_key sha256hex s1 b1 v1 m1 =
        RenderCache.generate_key sha256hex s2 b2 v2 m2) ∧
    (RenderCache.keyBytes s1 b1 v1 m1 = RenderCache.keyBytes s2 b2 v2 m2 →
      RenderCache.generate_key sha256hex s1 b1 v1 m1 =
        RenderCache.generate_key sha256hex s2 b2 v2 m2) := by
  constructor
  · intro hs hb hv hm
    rw [hs, hb, hv, hm]
  · intro hbytes
    unfold RenderCache.generate_key
    rw [hbytes]

/-- Witness for C8 (amended): determinism at a concrete tuple, and the
concrete concatenation collision propagated through a digest stand-in. -/
theorem generate_key_deterministic_concat_dependent_witness :
    RenderCache.generate_key (fun s => s) "cube(1);".toList "auto".toList
        "3d".toList false =
      RenderCache.generate_key (fun s => s) "cube(1);".toList "auto".toList
        "3d".toList false ∧
    RenderCache.generate_key (fun s => s) "ab".toList "c".toList
        "3d".toList false =
      RenderCache.generate_key (fun s => s) "a".toList "bc".toList
        "3d".toList false :=
  ⟨(generate_key_deterministic_concat_dependent (fun s => s)
      "cube(1);".toList "auto".toList "3d".toList false
      "cube(1);".toList "auto".toList "3d".toList false).1 rfl rfl rfl rfl,
   (generate_key_deterministic_concat_dependent (fun s => s)
      "ab".toList "c".toList "3d".toList false
      "a".toList "bc".toList "3d".toList false).2 (by decide)⟩

/-- A cache entry whose age at time `10` is exactly `10`. -/
def boundaryAgeEntry : CacheEntry :=
  ⟨CACHE_VERSION, "/tmp/out.png".toList, 0, "png".toList, []⟩

/-- Counterexample for C9: with `now = 10` and `max_age = 10`, the stored
entry has age exactly equal to the threshold, yet `evict_old` removes it —
the code retains `age < max_age`, so an entry whose age equals `max_age` is
evicted, not retained as claimed. -/
theorem evict_old_boundary_counterexample :
    (RenderCache.evict_old ⟨[("k".toList, boundaryAgeEntry)]⟩ 10 10).entries =
      [] := by decide

/-- C9 (amended): `evict_old` removes exactly the entries whose age
(`now` minus stored timestamp, saturating at zero) is greater than or equal
to `max_age`, regardless of entry validity; equivalently it retains exactly
the entries with age strictly below `max_age`, so an entry whose age equals
`max_age` is removed. -/
theorem evict_old_removes_age_ge_threshold (c : RenderCache)
    (now max_age_secs : Nat) (p : List Char × CacheEntry) :
    p ∈ (c.evict_old now max_age_secs).entries ↔
      p ∈ c.entries ∧ now - p.2.timestamp < max_age_secs := by
  simp [RenderCache.evict_old, List.mem_filter]

/-- Witness for C9 (amended): an entry of age 9 survives an eviction with
threshold 10, and the age-10 entry does not. -/
theorem evict_old_removes_age_ge_threshold_witness :
    ("k".toList, boundaryAgeEntry) ∈
      (RenderCache.evict_old ⟨[("k".toList, boundaryAgeEntry)]⟩ 9 10).entries ∧
    ¬ ("k".toList, boundaryAgeEntry) ∈
      (RenderCache.evict_old ⟨[("k".toList, boundaryAgeEntry)]⟩ 10 10).entries :=
  ⟨(evict_old_removes_age_ge_threshold ⟨[("k".toList, boundaryAgeEntry)]⟩ 9 10
      ("k".toList, boundaryAgeEntry)).mpr ⟨by decide, by decide⟩,
   fun hmem =>
     absurd ((evict_old_removes_age_ge_threshold
       ⟨[("k".toList, boundaryAgeEntry)]⟩ 10 10
       ("k".toList, boundaryAgeEntry)).mp hmem).2 (by decide)⟩

end OpenscadStudio
